import Mathlib

/-!
Verification of the Conscrypt JNI binding layer
(`common/src/jni/main/cpp/conscrypt/native_crypto.cc`).

The development shallowly embeds the marshalling and blocking-I/O logic of
the binding layer.  Java byte arrays are modelled as `List Nat` with every
element below 256; machine integers are modelled as `Int`/`Nat`; the wrapped
native library's primitives (`BN_bin2bn`, `BN_bn2bin`, `poll`, `write`,
`SSL_read`, ...) are modelled from their documented contracts, while all
control flow of the binding layer itself is translated from the C source.
-/

namespace Conscrypt

/-! ## Big-integer conversions: `arrayToBignum` / `bignumToArray`

`arrayToBignum` converts a Java `byte[]` holding a two's-complement
big-endian integer into a BIGNUM (modelled as `Int`); `bignumToArray`
converts a BIGNUM back into a `byte[]`.  A BIGNUM is modelled by the integer
it represents; `BN_bin2bn` is modelled as big-endian base-256 evaluation and
`BN_bn2bin`/`BN_num_bytes` as the minimal big-endian base-256 encoding of
the magnitude. -/

/-- Big-endian base-256 value of a byte list (model of `BN_bin2bn`). -/
def beVal : List Nat → Nat
  | [] => 0
  | b :: rest => b * 256 ^ rest.length + beVal rest

/-- Minimal big-endian base-256 digits of `n` (model of `BN_bn2bin` writing
`BN_num_bytes` bytes); the first argument is recursion fuel. -/
def minBytesFuel : Nat → Nat → List Nat
  | 0, _ => []
  | fuel + 1, n => if n = 0 then [] else minBytesFuel fuel (n / 256) ++ [n % 256]

/-- Minimal big-endian base-256 encoding of a natural number; empty for 0. -/
def minBytes (n : Nat) : List Nat := minBytesFuel n n

/-- The in-place two's-complement loop shared by `arrayToBignum` and
`bignumToArray`: walking from the last byte to the first, each byte is
XORed with `0xFF` and, while the carry is set, incremented modulo 256.
Returns the transformed bytes together with the final carry flag. -/
def twosComp : List Nat → List Nat × Bool
  | [] => ([], true)
  | b :: rest =>
      let p := twosComp rest
      let x := b ^^^ 255
      if p.2 then (((x + 1) % 256) :: p.1, (x + 1) % 256 == 0) else (x :: p.1, false)

/-- Model of `arrayToBignum`: a Java two's-complement `byte[]` to the integer
the resulting BIGNUM represents.  The empty array is zero; a set top bit of
the first byte marks a negative value, which is converted to its magnitude
by the two's-complement loop before `BN_bin2bn`. -/
def arrayToBignum : List Nat → Int
  | [] => 0
  | b :: rest =>
      if b &&& 128 ≠ 0 then -(beVal (twosComp (b :: rest)).1 : Int)
      else (beVal (b :: rest) : Int)

/-- Model of `bignumToArray`: allocates `BN_num_bytes + 1` zero-initialised
bytes, writes the magnitude after the leading byte, then for a negative
value applies the two's-complement loop to the whole buffer and sets the
top bit of the first byte; for a non-negative value the first byte is 0. -/
def bignumToArray (z : Int) : List Nat :=
  if z < 0 then
    match (twosComp (0 :: minBytes z.natAbs)).1 with
    | [] => []
    | t :: rest => (t ||| 128) :: rest
  else 0 :: minBytes z.natAbs

/-- Validity of a byte list: every element is an actual byte. -/
def BytesValid (l : List Nat) : Prop := ∀ b ∈ l, b < 256

theorem beVal_append_single (l : List Nat) (b : Nat) :
    beVal (l ++ [b]) = 256 * beVal l + b := by
  induction l with
  | nil => simp [beVal]
  | cons a l ih =>
      simp only [List.cons_append, beVal, List.append_eq, ih, List.length_append,
        List.length_cons, List.length_nil]
      ring

theorem minBytesFuel_spec (fuel : Nat) : ∀ n ≤ fuel,
    beVal (minBytesFuel fuel n) = n ∧ BytesValid (minBytesFuel fuel n) := by
  induction fuel with
  | zero =>
      intro n hn
      interval_cases n
      exact ⟨rfl, by intro b hb; simp [minBytesFuel] at hb⟩
  | succ fuel ih =>
      intro n hn
      by_cases h0 : n = 0
      · subst h0
        exact ⟨by simp [minBytesFuel, beVal], by intro b hb; simp [minBytesFuel] at hb⟩
      · have hdiv : n / 256 ≤ fuel := by
          have : n / 256 < n := Nat.div_lt_self (Nat.pos_of_ne_zero h0) (by norm_num)
          omega
        obtain ⟨hv, hval⟩ := ih (n / 256) hdiv
        constructor
        · simp only [minBytesFuel, h0, if_false, beVal_append_single, hv]
          omega
        · intro b hb
          simp only [minBytesFuel, h0, if_false, List.mem_append, List.mem_singleton] at hb
          rcases hb with hb | hb
          · exact hval b hb
          · subst hb; exact Nat.mod_lt _ (by norm_num)

theorem beVal_minBytes (n : Nat) : beVal (minBytes n) = n :=
  (minBytesFuel_spec n n le_rfl).1

theorem minBytes_valid (n : Nat) : BytesValid (minBytes n) :=
  (minBytesFuel_spec n n le_rfl).2

theorem beVal_lt (l : List Nat) (h : BytesValid l) : beVal l < 256 ^ l.length := by
  induction l with
  | nil => simp [beVal]
  | cons b rest ih =>
      have hb : b < 256 := h b (List.mem_cons_self _ _)
      have hr : beVal rest < 256 ^ rest.length :=
        ih (fun x hx => h x (List.mem_cons_of_mem _ hx))
      have hmul : b * 256 ^ rest.length ≤ 255 * 256 ^ rest.length :=
        Nat.mul_le_mul_right _ (by omega)
      simp only [beVal, List.length_cons, pow_succ]
      calc b * 256 ^ rest.length + beVal rest
      _ < b * 256 ^ rest.length + 256 ^ rest.length := by omega
      _ ≤ 255 * 256 ^ rest.length + 256 ^ rest.length := by omega
      _ = 256 ^ rest.length * 256 := by ring
      _ ≤ 256 ^ rest.length * 256 := le_rfl

set_option maxRecDepth 8000 in
theorem xor255_eq : ∀ b, b < 256 → b ^^^ 255 = 255 - b := by
  decide

/-- Core characterisation of the two's-complement loop on valid bytes: it
preserves length and validity, its carry flag is set exactly on value zero,
and it computes `256 ^ length - value` (or 0 on value zero). -/
theorem twosComp_spec (l : List Nat) (h : BytesValid l) :
    (twosComp l).1.length = l.length ∧
    BytesValid (twosComp l).1 ∧
    ((twosComp l).2 = true ↔ beVal l = 0) ∧
    beVal (twosComp l).1 = (if beVal l = 0 then 0 else 256 ^ l.length - beVal l) := by
  induction l with
  | nil =>
      refine ⟨rfl, ?_, by decide, by decide⟩
      intro b hb
      simp [twosComp] at hb
  | cons b rest ih =>
      have hb : b < 256 := h b (List.mem_cons_self _ _)
      have hvrest : BytesValid rest := fun x hx => h x (List.mem_cons_of_mem _ hx)
      obtain ⟨ihlen, ihval, ihcarry, ihv⟩ := ih hvrest
      have hx : b ^^^ 255 = 255 - b := xor255_eq b hb
      have hrlt : beVal rest < 256 ^ rest.length := beVal_lt rest hvrest
      have hP : 0 < 256 ^ rest.length := Nat.pos_pow_of_pos _ (by norm_num)
      have hble : b * 256 ^ rest.length ≤ 255 * 256 ^ rest.length :=
        Nat.mul_le_mul_right _ (by omega)
      have hmul0 : b * 256 ^ rest.length = 0 ↔ b = 0 := by
        constructor
        · intro hh
          rcases Nat.mul_eq_zero.mp hh with h1 | h1
          · exact h1
          · omega
        · intro hh
          simp [hh]
      by_cases hc : (twosComp rest).2 = true
      · -- carry still set: the tail bytes were all zero
        have hz : beVal rest = 0 := ihcarry.mp hc
        have hv1 : beVal (twosComp rest).1 = 0 := by rw [ihv, hz]; simp
        have harith : 255 - b + 1 = 256 - b := by omega
        simp only [twosComp, hc, if_true, hx, harith]
        refine ⟨by simpa using ihlen, ?_, ?_, ?_⟩
        · intro y hy
          rcases List.mem_cons.mp hy with hy | hy
          · subst hy; exact Nat.mod_lt _ (by norm_num)
          · exact ihval y hy
        · simp only [beq_iff_eq, beVal, hz, Nat.add_zero, hmul0]
          omega
        · simp only [beVal, hv1, hz, ihlen, Nat.add_zero, List.length_cons, pow_succ]
          by_cases hb0 : b = 0
          · subst hb0
            norm_num
          · have h1 : (256 - b) % 256 = 256 - b := by omega
            have h2 : b * 256 ^ rest.length ≠ 0 := by
              rw [Ne, hmul0]
              exact hb0
            simp only [h1, h2, if_false]
            rw [Nat.sub_mul, Nat.mul_comm 256 (256 ^ rest.length)]
      · -- carry already clear: the tail had a nonzero value
        have hz : beVal rest ≠ 0 := fun hzz => hc (ihcarry.mpr hzz)
        have hv1 : beVal (twosComp rest).1 = 256 ^ rest.length - beVal rest := by
          rw [ihv]
          simp [hz]
        simp only [twosComp, hc, if_false, hx]
        refine ⟨by simpa using ihlen, ?_, ?_, ?_⟩
        · intro y hy
          rcases List.mem_cons.mp hy with hy | hy
          · subst hy; omega
          · exact ihval y hy
        · simp only [beVal]
          constructor
          · intro hfalse
            exact absurd hfalse (by simp)
          · intro hzero
            omega
        · simp only [beVal, hv1, ihlen, List.length_cons, pow_succ]
          have hne : b * 256 ^ rest.length + beVal rest ≠ 0 := by
            intro hzz
            exact hz (by omega)
          simp only [hne, if_false]
          rw [Nat.sub_mul]
          omega

/-- Decoding inverts encoding on every integer: converting a BIGNUM to a
Java two's-complement array and back yields the same BIGNUM value. -/
theorem arrayToBignum_bignumToArray (z : Int) :
    arrayToBignum (bignumToArray z) = z := by
  by_cases hneg : z < 0
  · -- negative values
    set mag := z.natAbs with hmag
    have hmagpos : 1 ≤ mag := by omega
    set m := minBytes mag with hm
    have hmv : BytesValid m := minBytes_valid mag
    have hmval : beVal m = mag := beVal_minBytes mag
    have hmlt : mag < 256 ^ m.length := by rw [← hmval]; exact beVal_lt m hmv
    obtain ⟨plen, pval, pcarry, pv⟩ := twosComp_spec m hmv
    have hpc : (twosComp m).2 = false := by
      rw [Bool.eq_false_iff]
      intro h
      exact absurd (pcarry.mp h) (by omega)
    have hpv : beVal (twosComp m).1 = 256 ^ m.length - mag := by
      rw [pv, hmval]
      have : ¬ mag = 0 := by omega
      simp [this]
    -- unfold one step of twosComp on the full buffer 0 :: m
    have hstep : twosComp (0 :: m) = (255 :: (twosComp m).1, false) := by
      simp [twosComp, hpc]
    have henc : bignumToArray z = 255 :: (twosComp m).1 := by
      simp only [bignumToArray, hneg, if_true, ← hmag, ← hm, hstep]
      have hor : (255 : Nat) ||| 128 = 255 := by decide
      rw [hor]
    rw [henc]
    -- now decode 255 :: (twosComp m).1
    have hneg255 : (255 : Nat) &&& 128 ≠ 0 := by decide
    simp only [arrayToBignum, hneg255, if_true]
    -- twosComp of the re-encoded buffer
    have hqv : BytesValid (twosComp m).1 := pval
    obtain ⟨qlen, qval, qcarry, qv⟩ := twosComp_spec (twosComp m).1 hqv
    have hqnz : beVal (twosComp m).1 ≠ 0 := by
      rw [hpv]; omega
    have hqc : (twosComp (twosComp m).1).2 = false := by
      rw [Bool.eq_false_iff]
      intro h
      exact absurd (qcarry.mp h) hqnz
    have hstep2 : twosComp (255 :: (twosComp m).1) =
        ((255 ^^^ 255) :: (twosComp (twosComp m).1).1, false) := by
      simp [twosComp, hqc]
    rw [hstep2]
    have hxor : (255 : Nat) ^^^ 255 = 0 := by decide
    rw [hxor]
    have hbv : beVal (0 :: (twosComp (twosComp m).1).1) =
        beVal (twosComp (twosComp m).1).1 := by
      simp [beVal]
    rw [hbv]
    have : beVal (twosComp (twosComp m).1).1 = mag := by
      rw [qv]
      simp only [hqnz, if_false]
      rw [plen, hpv]
      omega
    rw [this]
    omega
  · -- non-negative values
    have henc : bignumToArray z = 0 :: minBytes z.natAbs := by
      simp [bignumToArray, hneg]
    rw [henc]
    have h0 : (0 : Nat) &&& 128 = 0 := by decide
    simp only [arrayToBignum, h0, ne_eq, not_true_eq_false, if_false,
      not_false_eq_true, beVal]
    rw [beVal_minBytes]
    simp only [Nat.zero_mul, Nat.zero_add]
    omega

/-- C1: the claim asserts byte-exact round-tripping; it fails because
`bignumToArray` always prepends a sign byte to the `BN_num_bytes`-long
magnitude: the array `[0x01]` decodes to 1 but re-encodes to `[0x00, 0x01]`,
not `[0x01]`. -/
theorem arrayToBignum_roundtrip_not_byte_exact :
    bignumToArray (arrayToBignum [1]) = [0, 1] ∧
    bignumToArray (arrayToBignum [1]) ≠ [1] := by
  constructor
  · decide
  · decide

/-- C1 (amended): decoding a two's-complement byte array with
`arrayToBignum` and re-encoding it with `bignumToArray` yields a byte array
that represents the same integer (one sign byte followed by the minimal
magnitude bytes), though not necessarily the original bytes. -/
theorem arrayToBignum_roundtrip_value :
    ∀ b : List Nat, arrayToBignum (bignumToArray (arrayToBignum b)) = arrayToBignum b :=
  fun b => arrayToBignum_bignumToArray (arrayToBignum b)

/-! ## The interruptible blocking-I/O wait (`sslSelect` and friends)

The per-connection `AppData` structure carries the liveness flag, the count
of threads waiting on the socket, and the emergency pipe `fdsEmergency`
used to wake a blocked `poll`.  The `poll`, `write` and `SSL_*` native
calls are nondeterministic from the binding layer's point of view, so each
loop iteration consumes one element of an oracle list describing that
iteration's native outcomes; an `Option` result is `none` when the oracle
is too short to reach a loop exit. -/

/-- Linux value of the `EINTR` errno. -/
def EINTR : Nat := 4

/-- Return-code constants of the SSL helper layer. -/
def THROW_SSLEXCEPTION : Int := -2

def THROW_SOCKETTIMEOUTEXCEPTION : Int := -3

def THROWN_EXCEPTION : Int := -4

/-- The fields of the per-connection `AppData` structure used by the
interruption mechanism: the liveness flag, the waiting-thread count and the
number of wake tokens currently buffered in the emergency pipe. -/
structure AppData where
  aliveAndKicking : Bool
  waitingThreads : Int
  pipeTokens : Nat
deriving Repr, DecidableEq

/-- Result of one `poll` call, per the POSIX contract: `-1` with an errno,
`0` on timeout, or the number `1 + extra` of ready descriptors. -/
inductive PollRes
  | err (errno : Nat)
  | timedOut
  | ready (extra : Nat)
deriving Repr, DecidableEq

/-- SSL error codes distinguished by the read/write/handshake loops. -/
inductive SslErr
  | SSL_ERROR_NONE
  | SSL_ERROR_ZERO_RETURN
  | SSL_ERROR_WANT_READ
  | SSL_ERROR_WANT_WRITE
  | SSL_ERROR_SYSCALL
  | otherError
deriving Repr, DecidableEq

/-- Oracle for one iteration of the `sslSelect` poll loop: whether
`NetFd::isClosed` holds at the top of the loop, the outcome of the `poll`
call, whether `POLLIN` fired on the emergency pipe, and whether the
descriptor shows as closed when re-checked after a poll error. -/
structure SelectIter where
  closedAtEntry : Bool
  res : PollRes
  pipeReadable : Bool
  closedAfterErr : Bool
deriving Repr, DecidableEq

/-- The poll loop of `sslSelect`: exits with `THROWN_EXCEPTION` when the
descriptor is closed (checked before polling, and re-checked when poll
reports an error), breaks out of the retry loop on a non-`EINTR` error,
retries the poll on `EINTR`, and otherwise returns poll's result.  Returns
(result, pipe-readable flag of the final poll, number of poll calls). -/
def sslSelectLoop : List SelectIter → Option (Int × Bool × Nat)
  | [] => none
  | it :: rest =>
      if it.closedAtEntry then some (THROWN_EXCEPTION, false, 0)
      else
        match it.res with
        | .err e =>
            if it.closedAfterErr then some (THROWN_EXCEPTION, false, 1)
            else if e ≠ EINTR then some (-1, false, 1)
            else
              match sslSelectLoop rest with
              | none => none
              | some (r, p, n) => some (r, p, n + 1)
        | .timedOut => some (0, false, 1)
        | .ready extra => some (1 + (extra : Int), it.pipeReadable, 1)

/-- Everything `sslSelect` returns and does to the shared state. -/
structure SelectOut where
  result : Int
  st : AppData
  polls : Nat
  pollTimeout : Int
deriving Repr, DecidableEq

/-- Model of `sslSelect`: runs the poll loop, converts the Java timeout to
poll semantics (`<= 0` becomes `-1`, i.e. block indefinitely), drains one
wake token when woken with the pipe readable, and decrements
`waitingThreads` before returning.  The `type` argument selects the poll
direction (`SSL_ERROR_WANT_READ` or `SSL_ERROR_WANT_WRITE`), choosing the
requested poll events exactly as in the source. -/
def sslSelect (type : SslErr) (timeout_millis : Int) (iters : List SelectIter)
    (st : AppData) : Option SelectOut :=
  match sslSelectLoop iters with
  | none => none
  | some (r, pipeReadable, n) =>
      let st1 :=
        if 0 < r then
          if pipeReadable then { st with pipeTokens := st.pipeTokens - 1 } else st
        else st
      some { result := r
             st := { st1 with waitingThreads := st1.waitingThreads - 1 }
             polls := n
             pollTimeout := if timeout_millis ≤ 0 then -1 else timeout_millis }

/-- The `write` retry loop of `sslNotify`: each oracle element is the errno
left by one write attempt on the emergency pipe (0 on success); the loop
repeats while that errno is `EINTR`.  Returns (errno left by the final
write, number of write calls made). -/
def sslNotifyLoop : List Nat → Option (Nat × Nat)
  | [] => none
  | w :: rest =>
      if w = EINTR then
        match sslNotifyLoop rest with
        | none => none
        | some (e, n) => some (e, n + 1)
      else some (w, 1)

/-- Model of `sslNotify`: backs up errno, writes one wake token to the
emergency pipe retrying while errno is `EINTR`, then restores the backed-up
errno (the caller relies on it for error messages).  Returns (errno on
return, number of write calls, updated state). -/
def sslNotify (errno0 : Nat) (writes : List Nat) (st : AppData) :
    Option (Nat × Nat × AppData) :=
  match sslNotifyLoop writes with
  | none => none
  | some (_, n) => some (errno0, n, { st with pipeTokens := st.pipeTokens + 1 })

/-- Model of `NativeCrypto_SSL_interrupt` on a connection with application
data: marks the connection as quasi-dead by clearing `aliveAndKicking`,
then calls `sslNotify` twice (at most two threads can be waiting). -/
def SSL_interrupt (writes1 writes2 : List Nat) (st : AppData) : Option AppData :=
  match sslNotify 0 writes1 { st with aliveAndKicking := false } with
  | none => none
  | some (_, _, st1) =>
      match sslNotify 0 writes2 st1 with
      | none => none
      | some (_, _, st2) => some st2

/-- Modelled from the POSIX contract of `poll`: when the socket or the
emergency pipe is ready the call reports the ready descriptors immediately
without sleeping, otherwise it sleeps out the timeout.  Returns the poll
outcome, whether `POLLIN` fired on the emergency pipe, and whether the
call slept. -/
def pollSpec (socketReady : Bool) (pipeTokens : Nat) : PollRes × Bool × Bool :=
  if 0 < pipeTokens then (.ready (if socketReady then 1 else 0), true, false)
  else if socketReady then (.ready 0, false, false)
  else (.timedOut, false, true)

/-- The single poll-loop iteration that `pollSpec` induces on an open
descriptor. -/
def pollSpecIter (socketReady : Bool) (st : AppData) : SelectIter :=
  { closedAtEntry := false
    res := (pollSpec socketReady st.pipeTokens).1
    pipeReadable := (pollSpec socketReady st.pipeTokens).2.1
    closedAfterErr := false }

/-- `sslSelect` with the poll call resolved by `pollSpec`: the pair is the
select outcome and whether the underlying poll slept. -/
def sslSelectSpec (type : SslErr) (timeout_millis : Int) (socketReady : Bool)
    (st : AppData) : Option SelectOut × Bool :=
  (sslSelect type timeout_millis [pollSpecIter socketReady st] st,
   (pollSpec socketReady st.pipeTokens).2.2)

/-- Oracle for one iteration of the `sslRead`/`sslWrite` loops: the value
returned by `SSL_read`/`SSL_write`, the SSL error it maps to, the errno it
left, whether the BIO byte counters moved, and the poll oracle for the
inner `sslSelect` when the loop has to wait. -/
structure ReadIter where
  result : Int
  err : SslErr
  errnoVal : Nat
  movedData : Bool
  select : List SelectIter
deriving Repr, DecidableEq

/-- The `while (appData->aliveAndKicking)` loop of `sslRead`.  Each
iteration calls `SSL_read` (counted), wakes a waiting thread when the BIO
counters moved, bumps `waitingThreads` before waiting, and dispatches on
the SSL error exactly as the source's switch does.  Returns (result,
state, number of `SSL_read` calls). -/
def sslReadLoop (timeout : Int) :
    List ReadIter → AppData → Nat → Option (Int × AppData × Nat)
  | [], st, calls =>
      if st.aliveAndKicking = false then some (-1, st, calls) else none
  | it :: rest, st, calls =>
      if st.aliveAndKicking = false then some (-1, st, calls)
      else
        let calls1 := calls + 1
        let st1 :=
          if it.movedData ∧ 0 < st.waitingThreads then
            { st with pipeTokens := st.pipeTokens + 1 }
          else st
        let st2 :=
          if it.err = .SSL_ERROR_WANT_READ ∨ it.err = .SSL_ERROR_WANT_WRITE then
            { st1 with waitingThreads := st1.waitingThreads + 1 }
          else st1
        if it.err = .SSL_ERROR_WANT_READ ∨ it.err = .SSL_ERROR_WANT_WRITE then
          match sslSelect it.err timeout it.select st2 with
          | none => none
          | some out =>
              if out.result = THROWN_EXCEPTION then some (THROWN_EXCEPTION, out.st, calls1)
              else if out.result = -1 then some (THROW_SSLEXCEPTION, out.st, calls1)
              else if out.result = 0 then some (THROW_SOCKETTIMEOUTEXCEPTION, out.st, calls1)
              else sslReadLoop timeout rest out.st calls1
        else
          match it.err with
          | .SSL_ERROR_NONE => some (it.result, st2, calls1)
          | .SSL_ERROR_ZERO_RETURN => some (-1, st2, calls1)
          | .SSL_ERROR_SYSCALL =>
              if it.result = 0 then some (-1, st2, calls1)
              else if it.errnoVal = EINTR then sslReadLoop timeout rest st2 calls1
              else some (THROW_SSLEXCEPTION, st2, calls1)
          | _ => some (THROW_SSLEXCEPTION, st2, calls1)

/-- Model of `sslRead`: a zero-length request returns 0 before touching any
state; otherwise the read loop runs. -/
def sslRead (timeout len : Int) (iters : List ReadIter) (st : AppData) :
    Option (Int × AppData × Nat) :=
  if len = 0 then some (0, st, 0) else sslReadLoop timeout iters st 0

/-- The `while (appData->aliveAndKicking && len > 0)` loop of `sslWrite`.
`count` is the total requested length, returned on normal loop exit; a
successful partial write shrinks `len` and iterates.  Returns (result,
state, number of `SSL_write` calls). -/
def sslWriteLoop (timeout count : Int) :
    List ReadIter → Int → AppData → Nat → Option (Int × AppData × Nat)
  | [], len, st, calls =>
      if st.aliveAndKicking = false ∨ len ≤ 0 then some (count, st, calls) else none
  | it :: rest, len, st, calls =>
      if st.aliveAndKicking = false ∨ len ≤ 0 then some (count, st, calls)
      else
        let calls1 := calls + 1
        let st1 :=
          if it.movedData ∧ 0 < st.waitingThreads then
            { st with pipeTokens := st.pipeTokens + 1 }
          else st
        let st2 :=
          if it.err = .SSL_ERROR_WANT_READ ∨ it.err = .SSL_ERROR_WANT_WRITE then
            { st1 with waitingThreads := st1.waitingThreads + 1 }
          else st1
        if it.err = .SSL_ERROR_WANT_READ ∨ it.err = .SSL_ERROR_WANT_WRITE then
          match sslSelect it.err timeout it.select st2 with
          | none => none
          | some out =>
              if out.result = THROWN_EXCEPTION then some (THROWN_EXCEPTION, out.st, calls1)
              else if out.result = -1 then some (THROW_SSLEXCEPTION, out.st, calls1)
              else if out.result = 0 then some (THROW_SOCKETTIMEOUTEXCEPTION, out.st, calls1)
              else sslWriteLoop timeout count rest len out.st calls1
        else
          match it.err with
          | .SSL_ERROR_NONE => sslWriteLoop timeout count rest (len - it.result) st2 calls1
          | .SSL_ERROR_ZERO_RETURN => some (-1, st2, calls1)
          | .SSL_ERROR_SYSCALL =>
              if it.result = 0 then some (-1, st2, calls1)
              else if it.errnoVal = EINTR then sslWriteLoop timeout count rest len st2 calls1
              else some (THROW_SSLEXCEPTION, st2, calls1)
          | _ => some (THROW_SSLEXCEPTION, st2, calls1)

/-- Model of `sslWrite`: a zero-length request returns 0 before touching
any state; otherwise the write loop runs with `count = len`. -/
def sslWrite (timeout len : Int) (iters : List ReadIter) (st : AppData) :
    Option (Int × AppData × Nat) :=
  if len = 0 then some (0, st, 0) else sslWriteLoop timeout len iters len st 0

/-- Oracle for one iteration of the `NativeCrypto_SSL_do_handshake` loop:
the `SSL_do_handshake` return value, the errno it left, the SSL error it
maps to, and the poll oracle for the inner `sslSelect`. -/
structure HsIter where
  ret : Int
  errnoVal : Nat
  err : SslErr
  select : List SelectIter
deriving Repr, DecidableEq

/-- How `NativeCrypto_SSL_do_handshake` returns to Java. -/
inductive HsOutcome
  | success
  | socketClosed
  | selectFailed
  | handshakeTimedOut
  | handshakeFailed
deriving Repr, DecidableEq

/-- The `while (appData->aliveAndKicking)` loop of
`NativeCrypto_SSL_do_handshake`: success on return 1, an `errno == EINTR`
failure retries the handshake call, `WANT_READ`/`WANT_WRITE` waits via
`sslSelect` and retries on readiness, and everything else breaks out and
throws.  Returns (outcome, state, number of `SSL_do_handshake` calls). -/
def SSL_do_handshake_loop (timeout : Int) :
    List HsIter → AppData → Nat → Option (HsOutcome × AppData × Nat)
  | [], st, calls =>
      if st.aliveAndKicking = false then some (.handshakeFailed, st, calls) else none
  | it :: rest, st, calls =>
      if st.aliveAndKicking = false then some (.handshakeFailed, st, calls)
      else
        let calls1 := calls + 1
        if it.ret = 1 then some (.success, st, calls1)
        else if it.errnoVal = EINTR then SSL_do_handshake_loop timeout rest st calls1
        else if it.err = .SSL_ERROR_WANT_READ ∨ it.err = .SSL_ERROR_WANT_WRITE then
          let st1 := { st with waitingThreads := st.waitingThreads + 1 }
          match sslSelect it.err timeout it.select st1 with
          | none => none
          | some out =>
              if out.result = THROWN_EXCEPTION then some (.socketClosed, out.st, calls1)
              else if out.result = -1 then some (.selectFailed, out.st, calls1)
              else if out.result = 0 then some (.handshakeTimedOut, out.st, calls1)
              else SSL_do_handshake_loop timeout rest out.st calls1
        else some (.handshakeFailed, st, calls1)

/-! ## Error-queue discipline and exception translation -/

/-- The managed-side and native-side error state visible to an entry
point: the codes pending on the native thread-local error queue and the
pending managed exception, if any. -/
structure JniEnvSt where
  errQueue : List Nat
  pendingException : Option String
deriving Repr, DecidableEq

/-- Model of `ERR_clear_error`. -/
def ERR_clear_error (s : JniEnvSt) : JniEnvSt := { s with errQueue := [] }

/-- Model of `conscrypt::jniutil::throwNullPointerException`. -/
def throwNullPointerException (s : JniEnvSt) : JniEnvSt :=
  { s with pendingException := some "NullPointerException" }

/-- Model of `conscrypt::jniutil::throwRuntimeException`. -/
def throwRuntimeException (s : JniEnvSt) : JniEnvSt :=
  { s with pendingException := some "RuntimeException" }

/-- Modelled from the spec: the `CHECK_ERROR_QUEUE_ON_RETURN` scope guard
(declared in the jniutil header, which is not among the sources) runs at
every entry point's return and clears whatever is left on the native error
queue, so no stale native error can be attributed to a later unrelated
call. -/
def CHECK_ERROR_QUEUE_ON_RETURN (body : JniEnvSt → Int × JniEnvSt) (s : JniEnvSt) :
    Int × JniEnvSt :=
  let r := body s
  (r.1, { r.2 with errQueue := [] })

/-- Body of `NativeCrypto_get_X509_ex_flags`: a null certificate throws a
`NullPointerException`; otherwise `X509_get_extension_flags` returns the
flags, possibly leaving `leaked` error codes on the queue (see
crbug.com/boringssl/382), which the site clears with `ERR_clear_error`
before returning the flags. -/
def get_X509_ex_flags_body (x509Null : Bool) (flags : Nat) (leaked : List Nat)
    (s : JniEnvSt) : Int × JniEnvSt :=
  if x509Null then (0, throwNullPointerException s)
  else ((flags : Int), ERR_clear_error { s with errQueue := s.errQueue ++ leaked })

/-- `NativeCrypto_get_X509_ex_flags` with its scope guard. -/
def NativeCrypto_get_X509_ex_flags (x509Null : Bool) (flags : Nat) (leaked : List Nat)
    (s : JniEnvSt) : Int × JniEnvSt :=
  CHECK_ERROR_QUEUE_ON_RETURN (get_X509_ex_flags_body x509Null flags leaked) s

/-- Body of `NativeCrypto_EVP_MD_CTX_copy_ex`: null contexts throw a
`NullPointerException` (via `fromContextObject`); a failing native copy
(`result == 0`, leaving `leaked` codes on the queue) throws a
`RuntimeException` and clears the error queue at the call site. -/
def EVP_MD_CTX_copy_ex_body (dstNull srcNull : Bool) (result : Int) (leaked : List Nat)
    (s : JniEnvSt) : Int × JniEnvSt :=
  if dstNull then (0, throwNullPointerException s)
  else if srcNull then (0, throwNullPointerException s)
  else
    if result = 0 then
      (0, ERR_clear_error (throwRuntimeException { s with errQueue := s.errQueue ++ leaked }))
    else (result, s)

/-- `NativeCrypto_EVP_MD_CTX_copy_ex` with its scope guard. -/
def NativeCrypto_EVP_MD_CTX_copy_ex (dstNull srcNull : Bool) (result : Int)
    (leaked : List Nat) (s : JniEnvSt) : Int × JniEnvSt :=
  CHECK_ERROR_QUEUE_ON_RETURN (EVP_MD_CTX_copy_ex_body dstNull srcNull result leaked) s

/-- The `BN_bin2bn`-failure path of `arrayToBignum` (lines 193-199): a
`RuntimeException` is thrown, the error queue is cleared at the call site,
and `false` is returned, leaving a pending exception. -/
def arrayToBignum_failure_path (leaked : List Nat) (s : JniEnvSt) : Bool × JniEnvSt :=
  (false, ERR_clear_error (throwRuntimeException { s with errQueue := s.errQueue ++ leaked }))

/-! ## Fixed-length key and signature operations -/

def ED25519_PUBLIC_KEY_LEN : Nat := 32

def ED25519_PRIVATE_KEY_LEN : Nat := 64

def X25519_PUBLIC_VALUE_LEN : Nat := 32

def X25519_PRIVATE_KEY_LEN : Nat := 32

/-- Modelled from the library contract (FIPS 204, ML-DSA-65): the size in
bytes of an ML-DSA-65 signature, `MLDSA65_SIGNATURE_BYTES`. -/
def MLDSA65_SIGNATURE_BYTES : Nat := 3309

/-- Modelled from the library contract: the seed length accepted by
`MLDSA65_private_key_from_seed`. -/
def MLDSA_SEED_BYTES : Nat := 32

/-- What a fixed-length entry point does with its byte-array arguments:
reject with `IllegalArgumentException`, or invoke the native primitive,
which accesses `accessLens.get i` bytes of the i-th array whose provided
Java length is `providedLens.get i`. -/
inductive MarshalOutcome
  | throwsIllegalArgument
  | callsNative (accessLens providedLens : List Nat)
deriving Repr, DecidableEq

/-- Model of `NativeCrypto_ED25519_keypair`: both output arrays must have
exactly the library-defined lengths (32 and 64) or an
`IllegalArgumentException` is thrown before any native call. -/
def NativeCrypto_ED25519_keypair (outPubLen outPrivLen : Nat) : MarshalOutcome :=
  if outPubLen ≠ ED25519_PUBLIC_KEY_LEN then .throwsIllegalArgument
  else if outPrivLen ≠ ED25519_PRIVATE_KEY_LEN then .throwsIllegalArgument
  else .callsNative [ED25519_PUBLIC_KEY_LEN, ED25519_PRIVATE_KEY_LEN]
    [outPubLen, outPrivLen]

/-- Model of `NativeCrypto_X25519_keypair`: both output arrays must be
exactly 32 bytes or an `IllegalArgumentException` is thrown. -/
def NativeCrypto_X25519_keypair (outPubLen outPrivLen : Nat) : MarshalOutcome :=
  if outPubLen ≠ X25519_PUBLIC_VALUE_LEN ∨ outPrivLen ≠ X25519_PRIVATE_KEY_LEN then
    .throwsIllegalArgument
  else .callsNative [X25519_PUBLIC_VALUE_LEN, X25519_PRIVATE_KEY_LEN]
    [outPubLen, outPrivLen]

/-- Model of `NativeCrypto_X25519` (the shared-secret computation): after
the null checks it passes the three buffers straight to the native `X25519`
primitive, which writes 32 bytes of output and reads 32 bytes of each key,
with no validation of the provided array lengths. -/
def NativeCrypto_X25519 (outLen privLen pubLen : Nat) : MarshalOutcome :=
  .callsNative [X25519_PUBLIC_VALUE_LEN, X25519_PRIVATE_KEY_LEN, X25519_PUBLIC_VALUE_LEN]
    [outLen, privLen, pubLen]

/-- Modelled from the spec: the `ARRAY_CHUNK_INVALID` /
`ARRAY_OFFSET_LENGTH_INVALID` bounds macro from the missing macros header:
an (offset, length) chunk is invalid for an array unless
`0 <= offset <= size`, `0 <= length <= size - offset`. -/
abbrev ARRAY_CHUNK_INVALID (arraySize offset len : Int) : Prop :=
  offset < 0 ∨ arraySize < offset ∨ len < 0 ∨ arraySize - offset < len

/-- How `NativeCrypto_MLDSA65_sign` returns. -/
inductive SignOutcome
  | throwsError
  | indexOutOfBounds
  | signature (len : Nat)
deriving Repr, DecidableEq

/-- Model of `NativeCrypto_MLDSA65_sign`: a seed that
`MLDSA65_private_key_from_seed` rejects (any length other than the
library's seed length, modelled from the library contract) throws; a bad
(0, dataLen) chunk throws `ArrayIndexOutOfBoundsException`; otherwise the
signature buffer is allocated with exactly `MLDSA65_SIGNATURE_BYTES`
bytes. -/
def NativeCrypto_MLDSA65_sign (seedLen : Nat) (dataArrayLen dataLen : Int) : SignOutcome :=
  if seedLen ≠ MLDSA_SEED_BYTES then .throwsError
  else if ARRAY_CHUNK_INVALID dataArrayLen 0 dataLen then .indexOutOfBounds
  else .signature MLDSA65_SIGNATURE_BYTES

/-- Model of `NativeCrypto_MLDSA65_verify`: an unparseable public key
throws `IllegalArgumentException` (returning -1), a bad data chunk throws
(returning -1), and otherwise the signature is handed with its actual
length to the native `MLDSA65_verify`, which accepts only well-formed
signatures of exactly `MLDSA65_SIGNATURE_BYTES` bytes (modelled from the
library contract). -/
def NativeCrypto_MLDSA65_verify (pubKeyParses : Bool) (dataArrayLen dataLen : Int)
    (sigLen : Nat) (sigValid : Bool) : Int :=
  if ¬ pubKeyParses then -1
  else if ARRAY_CHUNK_INVALID dataArrayLen 0 dataLen then -1
  else if sigLen = MLDSA65_SIGNATURE_BYTES ∧ sigValid then 1
  else 0

/-! ## Argument validation of `NativeCrypto_SSL_read` -/

/-- The distinguishable validation outcomes of `NativeCrypto_SSL_read`. -/
inductive ReadCheck
  | nullSsl
  | nullFd
  | nullShc
  | nullBuf
  | indexOutOfBounds
  | proceedsToRead
deriving Repr, DecidableEq

/-- The validation prefix of `NativeCrypto_SSL_read`, in source order: the
SSL pointer, the file descriptor, the callbacks object and the buffer are
null-checked in that order (each raising `NullPointerException`), and only
then is the (offset, len) chunk bounds-checked (raising
`ArrayIndexOutOfBoundsException`); in every failing case the function
returns 0 without calling `sslRead`. -/
def NativeCrypto_SSL_read_validate (sslNull fdNull shcNull bNull : Bool)
    (arraySize offset len : Int) : ReadCheck :=
  if sslNull then .nullSsl
  else if fdNull then .nullFd
  else if shcNull then .nullShc
  else if bNull then .nullBuf
  else if ARRAY_CHUNK_INVALID arraySize offset len then .indexOutOfBounds
  else .proceedsToRead

/-! ## Theorems for the claims -/

theorem sslSelectLoop_classify (iters : List SelectIter) :
    ∀ r p n, sslSelectLoop iters = some (r, p, n) →
      r = THROWN_EXCEPTION ∨ r = 0 ∨ r = -1 ∨ 0 < r := by
  induction iters with
  | nil => intro r p n h; simp [sslSelectLoop] at h
  | cons it rest ih =>
      intro r p n h
      simp only [sslSelectLoop] at h
      by_cases hcl : it.closedAtEntry
      · simp [hcl] at h
        exact Or.inl h.1.symm
      · simp only [hcl, if_false] at h
        cases hres : it.res with
        | err e =>
            rw [hres] at h
            by_cases hce : it.closedAfterErr
            · simp [hce] at h
              exact Or.inl h.1.symm
            · simp only [hce, if_false] at h
              by_cases hei : e = EINTR
              · simp only [hei, ne_eq, not_true_eq_false, if_false] at h
                cases hrec : sslSelectLoop rest with
                | none => rw [hrec] at h; simp at h
                | some trip =>
                    rw [hrec] at h
                    obtain ⟨r1, p1, n1⟩ := trip
                    simp at h
                    obtain ⟨h1, h2, h3⟩ := h
                    exact h1 ▸ ih r1 p1 n1 hrec
              · simp [hei] at h
                exact Or.inr (Or.inr (Or.inl h.1.symm))
        | timedOut =>
            rw [hres] at h
            simp at h
            exact Or.inr (Or.inl h.1.symm)
        | ready extra =>
            rw [hres] at h
            simp at h
            refine Or.inr (Or.inr (Or.inr ?_))
            omega

/-- C6: `sslSelect` converts the Java timeout semantics into poll
semantics (0 means block indefinitely, a positive value is passed through
in milliseconds) and returns exactly one of: descriptor-closed
(`THROWN_EXCEPTION`, a thrown-exception outcome), timed out (0), error
(-1), or ready (positive). -/
theorem sslSelect_timeout_and_outcomes :
    ∀ (type : SslErr) (timeout : Int) (iters : List SelectIter) (st : AppData)
      (out : SelectOut), sslSelect type timeout iters st = some out →
      (timeout = 0 → out.pollTimeout = -1) ∧
      (0 < timeout → out.pollTimeout = timeout) ∧
      (out.result = THROWN_EXCEPTION ∨ out.result = 0 ∨ out.result = -1 ∨
        0 < out.result) := by
  intro type timeout iters st out h
  simp only [sslSelect] at h
  cases hl : sslSelectLoop iters with
  | none => rw [hl] at h; simp at h
  | some trip =>
      obtain ⟨r, p, n⟩ := trip
      rw [hl] at h
      simp only [Option.some_inj] at h
      subst h
      refine ⟨?_, ?_, ?_⟩
      · intro h0
        simp [h0]
      · intro hpos
        have : ¬ timeout ≤ 0 := by omega
        simp [this]
      · simpa using sslSelectLoop_classify iters r p n hl

/-- C6 witness: a concrete timed-out run with timeout 0. -/
theorem sslSelect_timeout_and_outcomes_witness :
    ((0 : Int) = 0 → ({ result := 0, st := ⟨true, 0, 0⟩, polls := 1, pollTimeout := -1 } :
        SelectOut).pollTimeout = -1) ∧
    ((0 : Int) < 0 → ({ result := 0, st := ⟨true, 0, 0⟩, polls := 1, pollTimeout := -1 } :
        SelectOut).pollTimeout = 0) ∧
    (({ result := 0, st := ⟨true, 0, 0⟩, polls := 1, pollTimeout := -1 } :
        SelectOut).result = THROWN_EXCEPTION ∨
      ({ result := 0, st := ⟨true, 0, 0⟩, polls := 1, pollTimeout := -1 } :
        SelectOut).result = 0 ∨
      ({ result := 0, st := ⟨true, 0, 0⟩, polls := 1, pollTimeout := -1 } :
        SelectOut).result = -1 ∨
      0 < ({ result := 0, st := ⟨true, 0, 0⟩, polls := 1, pollTimeout := -1 } :
        SelectOut).result) :=
  sslSelect_timeout_and_outcomes .SSL_ERROR_WANT_READ 0
    [{ closedAtEntry := false, res := .timedOut, pipeReadable := false,
       closedAfterErr := false }] ⟨true, 1, 0⟩ _ (by decide)

/-- C7: `sslSelect` checks descriptor validity before blocking and
re-checks it when the blocking poll reports an error, reporting a closed
descriptor as the distinct `THROWN_EXCEPTION` outcome, which differs from
the timed-out outcome 0, for every timeout value and both directions. -/
theorem sslSelect_closed_detection :
    ∀ (type : SslErr) (timeout : Int) (it : SelectIter) (rest : List SelectIter)
      (st : AppData) (out : SelectOut),
      sslSelect type timeout (it :: rest) st = some out →
      (it.closedAtEntry = true → out.result = THROWN_EXCEPTION) ∧
      (∀ e, it.res = .err e → it.closedAfterErr = true →
        out.result = THROWN_EXCEPTION) ∧
      THROWN_EXCEPTION ≠ 0 := by
  intro type timeout it rest st out h
  refine ⟨?_, ?_, by decide⟩
  · intro hcl
    simp only [sslSelect, sslSelectLoop, hcl, if_true] at h
    simp only [Option.some_inj] at h
    subst h
    rfl
  · intro e hres hce
    by_cases hcl : it.closedAtEntry = true
    · simp only [sslSelect, sslSelectLoop, hcl, if_true] at h
      simp only [Option.some_inj] at h
      subst h
      rfl
    · have hcl2 : it.closedAtEntry = false := by simpa using hcl
      simp only [sslSelect, sslSelectLoop, hcl2, Bool.false_eq_true, if_false, hres,
        hce, if_true] at h
      simp only [Option.some_inj] at h
      subst h
      rfl

/-- A poll iteration whose descriptor shows as closed on the re-check
after a poll error, used to instantiate the C7 theorem. -/
def closedPollIter : SelectIter :=
  { closedAtEntry := false, res := .err 9, pipeReadable := false, closedAfterErr := true }

/-- The outcome `sslSelect` produces on `closedPollIter`. -/
def closedPollOut : SelectOut :=
  { result := THROWN_EXCEPTION, st := ⟨true, -1, 0⟩, polls := 1, pollTimeout := 5 }

/-- C7 witness: a descriptor closed concurrently with the poll. -/
theorem sslSelect_closed_detection_witness :
    (closedPollIter.closedAtEntry = true → closedPollOut.result = THROWN_EXCEPTION) ∧
    (∀ e, closedPollIter.res = .err e → closedPollIter.closedAfterErr = true →
      closedPollOut.result = THROWN_EXCEPTION) ∧
    THROWN_EXCEPTION ≠ 0 :=
  sslSelect_closed_detection .SSL_ERROR_WANT_WRITE 5 closedPollIter [] ⟨true, 0, 0⟩
    closedPollOut (by decide)

/-- C10: a zero-length `sslRead` or `sslWrite` returns 0 immediately,
performing no `SSL_read`/`SSL_write` call (the call count is 0) and
leaving the shared `AppData` state (including `waitingThreads` and
`aliveAndKicking`) exactly as it was. -/
theorem sslRead_sslWrite_zero_length :
    ∀ (timeout : Int) (iters : List ReadIter) (st : AppData),
      sslRead timeout 0 iters st = some (0, st, 0) ∧
      sslWrite timeout 0 iters st = some (0, st, 0) := by
  intro timeout iters st
  exact ⟨by simp [sslRead], by simp [sslWrite]⟩

/-- C9: `sslNotify` backs errno up before its emergency-pipe write loop
and restores it on exit, so the errno its caller observes equals the errno
from before the call, whatever write outcomes (including `EINTR` retries)
occurred in between. -/
theorem sslNotify_preserves_errno :
    ∀ (errno0 : Nat) (writes : List Nat) (st : AppData) (r : Nat × Nat × AppData),
      sslNotify errno0 writes st = some r → r.1 = errno0 := by
  intro errno0 writes st r h
  simp only [sslNotify] at h
  cases hl : sslNotifyLoop writes with
  | none => rw [hl] at h; simp at h
  | some p =>
      rw [hl] at h
      simp only [Option.some_inj] at h
      subst h
      rfl

/-- C9 witness: a write interrupted once by `EINTR` and then retried; the
caller still sees its original errno 7. -/
theorem sslNotify_preserves_errno_witness :
    ((7, 2, (⟨true, 1, 1⟩ : AppData)) : Nat × Nat × AppData).1 = 7 :=
  sslNotify_preserves_errno 7 [EINTR, 0] ⟨true, 1, 0⟩ (7, 2, ⟨true, 1, 1⟩) (by decide)

theorem sslSelectSpec_token_ready (type : SslErr) (timeout : Int) (socketReady : Bool)
    (st : AppData) (htok : 0 < st.pipeTokens) :
    ∃ out, (sslSelectSpec type timeout socketReady st).1 = some out ∧
      0 < out.result ∧ (sslSelectSpec type timeout socketReady st).2 = false := by
  cases socketReady with
  | false =>
      refine ⟨?_, ?_, ?_, ?_⟩
      case _ =>
        exact { result := 1
                st := { aliveAndKicking := st.aliveAndKicking
                        waitingThreads := st.waitingThreads - 1
                        pipeTokens := st.pipeTokens - 1 }
                polls := 1
                pollTimeout := if timeout ≤ 0 then -1 else timeout }
      · simp [sslSelectSpec, pollSpecIter, pollSpec, sslSelect, sslSelectLoop, htok,
          THROWN_EXCEPTION]
      · norm_num
      · simp [sslSelectSpec, pollSpec, htok]
  | true =>
      refine ⟨?_, ?_, ?_, ?_⟩
      case _ =>
        exact { result := 2
                st := { aliveAndKicking := st.aliveAndKicking
                        waitingThreads := st.waitingThreads - 1
                        pipeTokens := st.pipeTokens - 1 }
                polls := 1
                pollTimeout := if timeout ≤ 0 then -1 else timeout }
      · simp [sslSelectSpec, pollSpecIter, pollSpec, sslSelect, sslSelectLoop, htok,
          THROWN_EXCEPTION]
      · norm_num
      · simp [sslSelectSpec, pollSpec, htok]

/-- C3: after `NativeCrypto_SSL_interrupt` (which clears `aliveAndKicking`
and sends one wake token per potentially waiting thread, i.e. two), any
subsequent `sslSelect` returns ready immediately — the poll does not sleep
out its timeout, because a wake token sits in the emergency pipe — and the
`sslRead`/`sslWrite`/handshake loops exit without a single further
`SSL_read`/`SSL_write`/`SSL_do_handshake` call on the connection.  (A wait
already blocked inside poll is woken by the same tokens; that concurrent
hand-off is the POSIX pipe/poll contract captured by `pollSpec`.) -/
theorem SSL_interrupt_wakes_and_stops_io :
    ∀ (st : AppData) (w1 w2 : List Nat) (st2 : AppData),
      SSL_interrupt w1 w2 st = some st2 →
      st2.aliveAndKicking = false ∧
      st2.pipeTokens = st.pipeTokens + 2 ∧
      (∀ (type : SslErr) (timeout : Int) (socketReady : Bool),
        ∃ out, (sslSelectSpec type timeout socketReady st2).1 = some out ∧
          0 < out.result ∧ (sslSelectSpec type timeout socketReady st2).2 = false) ∧
      (∀ (timeout len : Int) (iters : List ReadIter), len ≠ 0 →
        sslRead timeout len iters st2 = some (-1, st2, 0)) ∧
      (∀ (timeout len : Int) (iters : List ReadIter), len ≠ 0 →
        sslWrite timeout len iters st2 = some (len, st2, 0)) ∧
      (∀ (timeout : Int) (iters : List HsIter),
        SSL_do_handshake_loop timeout iters st2 0 = some (.handshakeFailed, st2, 0)) := by
  intro st w1 w2 st2 h
  -- evaluate the two sslNotify calls
  simp only [SSL_interrupt, sslNotify] at h
  cases h1 : sslNotifyLoop w1 with
  | none => rw [h1] at h; simp at h
  | some p1 =>
      rw [h1] at h
      cases h2 : sslNotifyLoop w2 with
      | none => rw [h2] at h; simp at h
      | some p2 =>
          rw [h2] at h
          simp only [Option.some_inj] at h
          subst h
          have halive : ∀ iters st0, (st0 : AppData).aliveAndKicking = false →
              ∀ calls, sslReadLoop 0 iters st0 calls = some (-1, st0, calls) := by
            intro iters st0 h0 calls
            cases iters with
            | nil => simp [sslReadLoop, h0]
            | cons it rest => simp [sslReadLoop, h0]
          refine ⟨rfl, rfl, ?_, ?_, ?_, ?_⟩
          · intro type timeout socketReady
            exact sslSelectSpec_token_ready type timeout socketReady _ (by simp)
          · intro timeout len iters hlen
            simp only [sslRead, hlen, if_false]
            cases iters with
            | nil => simp [sslReadLoop]
            | cons it rest => simp [sslReadLoop]
          · intro timeout len iters hlen
            simp only [sslWrite, hlen, if_false]
            cases iters with
            | nil => simp [sslWriteLoop]
            | cons it rest => simp [sslWriteLoop]
          · intro timeout iters
            cases iters with
            | nil => simp [SSL_do_handshake_loop]
            | cons it rest => simp [SSL_do_handshake_loop]

/-- The state of a connection interrupted from `⟨true, 2, 0⟩`: dead flag,
two wake tokens. -/
def interruptedSt : AppData := ⟨false, 2, 2⟩

/-- C3 witness: interrupting a connection with two waiting threads and an
empty pipe, then observing a prompt wake-up and I/O loops that exit
without touching the descriptor. -/
theorem SSL_interrupt_wakes_and_stops_io_witness :
    interruptedSt.aliveAndKicking = false ∧
    (∃ out, (sslSelectSpec .SSL_ERROR_WANT_READ 100 false interruptedSt).1 = some out ∧
      0 < out.result ∧
      (sslSelectSpec .SSL_ERROR_WANT_READ 100 false interruptedSt).2 = false) ∧
    sslRead 100 5 [] interruptedSt = some (-1, interruptedSt, 0) ∧
    sslWrite 100 5 [] interruptedSt = some (5, interruptedSt, 0) ∧
    SSL_do_handshake_loop 100 [] interruptedSt 0 =
      some (.handshakeFailed, interruptedSt, 0) := by
  obtain ⟨h1, _, h3, h4, h5, h6⟩ :=
    SSL_interrupt_wakes_and_stops_io ⟨true, 2, 0⟩ [0] [0] interruptedSt (by decide)
  exact ⟨h1, h3 .SSL_ERROR_WANT_READ 100 false, h4 100 5 [] (by norm_num),
    h5 100 5 [] (by norm_num), h6 100 []⟩

/-- C4 (amended): every internal retry of this layer is an `EINTR` retry —
the poll loop in `sslSelect`, the emergency-pipe write loop in
`sslNotify`, and the re-issue of the interrupted `SSL_do_handshake` /
`SSL_read` system call in the handshake and read loops; any other native
failure is surfaced immediately, after exactly one native call. -/
theorem retries_only_on_EINTR :
    (∀ (type : SslErr) (timeout : Int) (e : Nat) (it : SelectIter)
      (rest : List SelectIter) (st : AppData) (out : SelectOut),
      it.closedAtEntry = false → it.res = .err e → it.closedAfterErr = false →
      e ≠ EINTR → sslSelect type timeout (it :: rest) st = some out →
      out.result = -1 ∧ out.polls = 1) ∧
    (∀ (w : Nat) (rest : List Nat) (e n : Nat), w ≠ EINTR →
      sslNotifyLoop (w :: rest) = some (e, n) → n = 1) ∧
    (∀ (timeout : Int) (it : HsIter) (rest : List HsIter) (st : AppData),
      st.aliveAndKicking = true → it.ret ≠ 1 → it.errnoVal ≠ EINTR →
      it.err ≠ .SSL_ERROR_WANT_READ → it.err ≠ .SSL_ERROR_WANT_WRITE →
      SSL_do_handshake_loop timeout (it :: rest) st 0 =
        some (.handshakeFailed, st, 1)) ∧
    (∀ (timeout : Int) (it : ReadIter) (rest : List ReadIter) (st : AppData),
      st.aliveAndKicking = true → it.err = .SSL_ERROR_SYSCALL → it.result ≠ 0 →
      it.errnoVal ≠ EINTR → it.movedData = false →
      sslReadLoop timeout (it :: rest) st 0 = some (THROW_SSLEXCEPTION, st, 1)) := by
  refine ⟨?_, ?_, ?_, ?_⟩
  · intro type timeout e it rest st out hcl hres hce hei h
    have hloop : sslSelectLoop (it :: rest) = some (-1, false, 1) := by
      simp [sslSelectLoop, hcl, hres, hce, hei]
    simp only [sslSelect, hloop] at h
    simp only [Option.some_inj] at h
    subst h
    exact ⟨rfl, rfl⟩
  · intro w rest e n hw h
    simp only [sslNotifyLoop, hw, if_false] at h
    simp only [Option.some_inj, Prod.mk.injEq] at h
    omega
  · intro timeout it rest st halive hret heintr hwr hww
    simp [SSL_do_handshake_loop, halive, hret, heintr, hwr, hww]
  · intro timeout it rest st halive herr hres heintr hmoved
    simp [sslReadLoop, halive, herr, hres, heintr, hmoved]

/-- A non-`EINTR` poll failure and the outcome `sslSelect` reports for
it. -/
def pollErrIter : SelectIter :=
  { closedAtEntry := false, res := .err 9, pipeReadable := false, closedAfterErr := false }

/-- The outcome `sslSelect` produces on `pollErrIter` with timeout 7. -/
def pollErrOut : SelectOut :=
  { result := -1, st := ⟨true, -1, 0⟩, polls := 1, pollTimeout := 7 }

/-- A handshake iteration failing with a non-retryable error. -/
def hsFailIter : HsIter := { ret := -1, errnoVal := 0, err := .otherError, select := [] }

/-- A read iteration whose `SSL_read` fails with a non-`EINTR` syscall
error. -/
def readFailIter : ReadIter :=
  { result := -1, err := .SSL_ERROR_SYSCALL, errnoVal := 9, movedData := false, select := [] }

/-- C4 witness: each loop surfaces a concrete non-`EINTR` failure after a
single native call. -/
theorem retries_only_on_EINTR_witness :
    (pollErrOut.result = -1 ∧ pollErrOut.polls = 1) ∧
    (1 : Nat) = 1 ∧
    SSL_do_handshake_loop 7 [hsFailIter] ⟨true, 0, 0⟩ 0 =
      some (.handshakeFailed, ⟨true, 0, 0⟩, 1) ∧
    sslReadLoop 7 [readFailIter] ⟨true, 0, 0⟩ 0 =
      some (THROW_SSLEXCEPTION, ⟨true, 0, 0⟩, 1) := by
  obtain ⟨h1, h2, h3, h4⟩ := retries_only_on_EINTR
  refine ⟨h1 .SSL_ERROR_WANT_READ 7 9 pollErrIter [] ⟨true, 0, 0⟩ pollErrOut rfl rfl rfl
      (by decide) (by decide), ?_, ?_, ?_⟩
  · exact h2 0 [] 0 1 (by decide) (by decide)
  · exact h3 7 hsFailIter [] ⟨true, 0, 0⟩ rfl (by decide) (by decide) (by decide) (by decide)
  · exact h4 7 readFailIter [] ⟨true, 0, 0⟩ rfl rfl (by decide) (by decide) rfl

/-- C4 counterexample: the claim says the `EINTR` poll loop in `sslSelect`
is the only retry anywhere in the layer, yet the handshake loop of
`NativeCrypto_SSL_do_handshake` (its own "retry case") re-invokes
`SSL_do_handshake` after a failure with `errno == EINTR`: here the first
native call fails, yet the loop makes a second call and succeeds instead
of surfacing the failure. -/
theorem handshake_retries_outside_sslSelect :
    SSL_do_handshake_loop 0
      [{ ret := -1, errnoVal := EINTR, err := .otherError, select := [] },
       { ret := 1, errnoVal := 0, err := .SSL_ERROR_NONE, select := [] }]
      ⟨true, 0, 0⟩ 0 = some (.success, ⟨true, 0, 0⟩, 2) := by
  decide

/-- C2: every entry point runs under the `CHECK_ERROR_QUEUE_ON_RETURN`
scope guard, so whatever its body leaves on the native error queue is
cleared by the time it returns; and at the three failure sites modelled
here the failure is converted into the managed exception at the call site
with the queue also cleared locally. -/
theorem error_queue_discipline :
    (∀ (body : JniEnvSt → Int × JniEnvSt) (s : JniEnvSt),
      (CHECK_ERROR_QUEUE_ON_RETURN body s).2.errQueue = []) ∧
    (∀ (flags : Nat) (leaked : List Nat) (s : JniEnvSt),
      (get_X509_ex_flags_body false flags leaked s).2.errQueue = []) ∧
    (∀ (x509Null : Bool) (flags : Nat) (leaked : List Nat) (s : JniEnvSt),
      (NativeCrypto_get_X509_ex_flags x509Null flags leaked s).2.errQueue = []) ∧
    (∀ (leaked : List Nat) (s : JniEnvSt),
      (EVP_MD_CTX_copy_ex_body false false 0 leaked s).2.errQueue = [] ∧
      (EVP_MD_CTX_copy_ex_body false false 0 leaked s).2.pendingException =
        some "RuntimeException") ∧
    (∀ (dstNull srcNull : Bool) (result : Int) (leaked : List Nat) (s : JniEnvSt),
      (NativeCrypto_EVP_MD_CTX_copy_ex dstNull srcNull result leaked s).2.errQueue = []) ∧
    (∀ (leaked : List Nat) (s : JniEnvSt),
      (arrayToBignum_failure_path leaked s).2.errQueue = [] ∧
      (arrayToBignum_failure_path leaked s).2.pendingException =
        some "RuntimeException" ∧
      (arrayToBignum_failure_path leaked s).1 = false) := by
  refine ⟨?_, ?_, ?_, ?_, ?_, ?_⟩
  · intro body s
    rfl
  · intro flags leaked s
    rfl
  · intro x509Null flags leaked s
    rfl
  · intro leaked s
    exact ⟨rfl, rfl⟩
  · intro dstNull srcNull result leaked s
    rfl
  · intro leaked s
    exact ⟨rfl, rfl, rfl⟩

/-- C5 (amended): `ED25519_keypair` and `X25519_keypair` accept exactly
the library-defined output lengths (32/64 and 32/32) and reject all others
with `IllegalArgumentException`; `MLDSA65_sign` allocates a signature of
exactly `MLDSA65_SIGNATURE_BYTES` and rejects wrong-length seeds;
`MLDSA65_verify` accepts only well-formed signatures of exactly that
length; but `NativeCrypto_X25519` (the shared-secret operation) performs
no length validation at all — it always invokes the native primitive,
which accesses 32 bytes of each buffer regardless of their provided
lengths. -/
theorem fixed_length_operations :
    (∀ p q, NativeCrypto_ED25519_keypair p q =
        .callsNative [ED25519_PUBLIC_KEY_LEN, ED25519_PRIVATE_KEY_LEN] [p, q] ↔
      (p = 32 ∧ q = 64)) ∧
    (∀ p q, NativeCrypto_ED25519_keypair p q = .throwsIllegalArgument ↔
      ¬ (p = 32 ∧ q = 64)) ∧
    (∀ p q, NativeCrypto_X25519_keypair p q = .throwsIllegalArgument ↔
      ¬ (p = 32 ∧ q = 32)) ∧
    (∀ o pr pu, NativeCrypto_X25519 o pr pu =
      .callsNative [32, 32, 32] [o, pr, pu]) ∧
    (∀ (seedLen : Nat) (dal dl : Int),
      NativeCrypto_MLDSA65_sign seedLen dal dl = .signature MLDSA65_SIGNATURE_BYTES ↔
      (seedLen = MLDSA_SEED_BYTES ∧ ¬ ARRAY_CHUNK_INVALID dal 0 dl)) ∧
    (∀ (pk : Bool) (dal dl : Int) (sl : Nat) (sv : Bool),
      NativeCrypto_MLDSA65_verify pk dal dl sl sv = 1 ↔
      (pk = true ∧ ¬ ARRAY_CHUNK_INVALID dal 0 dl ∧
        sl = MLDSA65_SIGNATURE_BYTES ∧ sv = true)) := by
  refine ⟨?_, ?_, ?_, ?_, ?_, ?_⟩
  · intro p q
    constructor
    · intro h
      by_cases hp : p = ED25519_PUBLIC_KEY_LEN
      · by_cases hq : q = ED25519_PRIVATE_KEY_LEN
        · exact ⟨hp, hq⟩
        · simp [NativeCrypto_ED25519_keypair, hp, hq] at h
      · simp [NativeCrypto_ED25519_keypair, hp] at h
    · intro ⟨hp, hq⟩
      subst hp
      subst hq
      rfl
  · intro p q
    constructor
    · intro h hpq
      obtain ⟨hp, hq⟩ := hpq
      subst hp
      subst hq
      simp [NativeCrypto_ED25519_keypair, ED25519_PUBLIC_KEY_LEN,
        ED25519_PRIVATE_KEY_LEN] at h
    · intro h
      by_cases hp : p = ED25519_PUBLIC_KEY_LEN
      · by_cases hq : q = ED25519_PRIVATE_KEY_LEN
        · exact absurd ⟨hp, hq⟩ h
        · simp [NativeCrypto_ED25519_keypair, hp, hq]
      · simp [NativeCrypto_ED25519_keypair, hp]
  · intro p q
    constructor
    · intro h hpq
      obtain ⟨hp, hq⟩ := hpq
      subst hp
      subst hq
      simp [NativeCrypto_X25519_keypair, X25519_PUBLIC_VALUE_LEN,
        X25519_PRIVATE_KEY_LEN] at h
    · intro h
      have : p ≠ X25519_PUBLIC_VALUE_LEN ∨ q ≠ X25519_PRIVATE_KEY_LEN := by
        by_contra hc
        push_neg at hc
        exact h ⟨hc.1, hc.2⟩
      simp [NativeCrypto_X25519_keypair, this]
  · intro o pr pu
    rfl
  · intro seedLen dal dl
    constructor
    · intro h
      by_cases hs : seedLen = MLDSA_SEED_BYTES
      · by_cases hinv : ARRAY_CHUNK_INVALID dal 0 dl
        · simp [NativeCrypto_MLDSA65_sign, hs, hinv] at h
        · exact ⟨hs, hinv⟩
      · simp [NativeCrypto_MLDSA65_sign, hs] at h
    · intro ⟨hs, hinv⟩
      simp [NativeCrypto_MLDSA65_sign, hs, hinv]
  · intro pk dal dl sl sv
    constructor
    · intro h
      by_cases hpk : pk = true
      · by_cases hinv : ARRAY_CHUNK_INVALID dal 0 dl
        · simp [NativeCrypto_MLDSA65_verify, hpk, hinv] at h
        · by_cases hsl : sl = MLDSA65_SIGNATURE_BYTES ∧ sv = true
          · exact ⟨hpk, hinv, hsl.1, hsl.2⟩
          · simp only [NativeCrypto_MLDSA65_verify, hpk, not_true_eq_false, if_false,
              hinv, hsl] at h
            exact absurd h (by norm_num)
      · simp only [NativeCrypto_MLDSA65_verify, hpk] at h
        simp at h
    · intro ⟨hpk, hinv, hsl, hsv⟩
      simp [NativeCrypto_MLDSA65_verify, hpk, hinv, hsl, hsv]

/-- C5 counterexample: the claim says any input whose length differs from
the specified one is rejected with a format/argument error, but
`NativeCrypto_X25519` with a 16-byte private key is not rejected: it
proceeds to the native call (which accesses 32 bytes of the 16-byte
buffer). -/
theorem X25519_no_length_validation :
    NativeCrypto_X25519 32 16 32 = .callsNative [32, 32, 32] [32, 16, 32] ∧
    NativeCrypto_X25519 32 16 32 ≠ .throwsIllegalArgument := by
  exact ⟨rfl, by decide⟩

/-- C8: the argument validation of `NativeCrypto_SSL_read` distinguishes
error kinds in a fixed order — null SSL pointer, null file descriptor,
null callbacks object, null buffer (each a `NullPointerException`), and
only then the (offset, len) bounds check (an
`ArrayIndexOutOfBoundsException`); each outcome is characterised exactly,
so a null argument is reported as null even when the bounds are also bad,
and in every failing case the function returns without reading. -/
theorem SSL_read_validation_order :
    ∀ (sslNull fdNull shcNull bNull : Bool) (arraySize offset len : Int),
      (NativeCrypto_SSL_read_validate sslNull fdNull shcNull bNull arraySize offset len =
          .nullFd ↔ (sslNull = false ∧ fdNull = true)) ∧
      (NativeCrypto_SSL_read_validate sslNull fdNull shcNull bNull arraySize offset len =
          .nullShc ↔ (sslNull = false ∧ fdNull = false ∧ shcNull = true)) ∧
      (NativeCrypto_SSL_read_validate sslNull fdNull shcNull bNull arraySize offset len =
          .nullBuf ↔
        (sslNull = false ∧ fdNull = false ∧ shcNull = false ∧ bNull = true)) ∧
      (NativeCrypto_SSL_read_validate sslNull fdNull shcNull bNull arraySize offset len =
          .indexOutOfBounds ↔
        (sslNull = false ∧ fdNull = false ∧ shcNull = false ∧ bNull = false ∧
          ARRAY_CHUNK_INVALID arraySize offset len)) ∧
      (NativeCrypto_SSL_read_validate sslNull fdNull shcNull bNull arraySize offset len =
          .proceedsToRead ↔
        (sslNull = false ∧ fdNull = false ∧ shcNull = false ∧ bNull = false ∧
          ¬ ARRAY_CHUNK_INVALID arraySize offset len)) := by
  intro sslNull fdNull shcNull bNull arraySize offset len
  by_cases hinv : ARRAY_CHUNK_INVALID arraySize offset len <;>
    cases sslNull <;> cases fdNull <;> cases shcNull <;> cases bNull <;>
      simp [NativeCrypto_SSL_read_validate, hinv]

end Conscrypt
